import Mathlib

/-!
# Verification of the firehose authorization middleware

Shallow embedding of `firehose/auth_handler.go`: an HTTP middleware that
wraps a downstream handler and authorizes requests by one of three
channels (Bearer header, Basic header, `access_token` query parameter).

Go strings are modelled as byte sequences (`List Nat`, each entry a byte
value); Go string comparison is byte-wise, which `List Nat` equality
mirrors. `ascii` converts an ASCII Lean string literal to its byte list,
matching the UTF-8 bytes Go uses for the same literal.
-/

namespace Firehose

/-- A Go string, as its byte sequence. -/
abbrev GoStr := List Nat

/-- Byte list of an ASCII string literal (matches Go UTF-8 bytes for ASCII). -/
def ascii (s : String) : GoStr := s.data.map Char.toNat

/-- First occurrence of byte `sep` in a byte list: returns the parts before
and after it, or `none` if the byte does not occur. Helper for the
embedding of `strings.SplitN(value, " ", 2)`. -/
def splitFirst (sep : Nat) : List Nat → Option (List Nat × List Nat)
  | [] => none
  | c :: cs =>
    if c = sep then some ([], cs)
    else (splitFirst sep cs).map (fun p => (c :: p.1, p.2))

/-- Embedding of Go `strings.SplitN(value, sep, 2)` for a one-byte
separator: at most two parts, the second keeps later separators. -/
def splitN2 (sep : Nat) (value : List Nat) : List (List Nat) :=
  match splitFirst sep value with
  | none => [value]
  | some (a, b) => [a, b]

/-- Embedding of Go `strings.Split(s, sep)` for a one-byte separator:
splits at every occurrence; the empty string yields one empty field. -/
def goSplit (sep : Nat) : List Nat → List (List Nat)
  | [] => [[]]
  | c :: cs =>
    if c = sep then [] :: goSplit sep cs
    else
      match goSplit sep cs with
      | [] => [[c]]
      | h :: t => (c :: h) :: t

/-- Value of one base64 alphabet character (A-Z, a-z, 0-9, +, /), given as
its byte; `none` for any byte outside the standard alphabet. -/
def b64Val (c : Nat) : Option Nat :=
  if 65 ≤ c ∧ c ≤ 90 then some (c - 65)
  else if 97 ≤ c ∧ c ≤ 122 then some (c - 97 + 26)
  else if 48 ≤ c ∧ c ≤ 57 then some (c - 48 + 52)
  else if c = 43 then some 62
  else if c = 47 then some 63
  else none

/-- Decode base64 input as quanta of four characters. The final quantum may
be `xx==` (one byte) or `xxx=` (two bytes); padding anywhere else, a
character outside the alphabet, or a length not a multiple of four is an
error (`none`), as in Go `encoding/base64` with `StdEncoding`. -/
def b64DecodeQuanta : List Nat → Option (List Nat)
  | [] => some []
  | c1 :: c2 :: c3 :: c4 :: rest =>
    match b64Val c1, b64Val c2 with
    | some v1, some v2 =>
      if c3 = 61 then
        if c4 = 61 ∧ rest = [] then some [v1 * 4 + v2 / 16]
        else none
      else
        match b64Val c3 with
        | some v3 =>
          if c4 = 61 then
            if rest = [] then some [v1 * 4 + v2 / 16, (v2 % 16) * 16 + v3 / 4]
            else none
          else
            match b64Val c4 with
            | some v4 =>
              (b64DecodeQuanta rest).map
                (fun t => (v1 * 4 + v2 / 16) ::
                  ((v2 % 16) * 16 + v3 / 4) :: ((v3 % 4) * 64 + v4) :: t)
            | none => none
        | none => none
    | _, _ => none
  | _ => none

/-- Embedding of Go `base64.StdEncoding.DecodeString`: carriage returns and
newlines are ignored, then the input is decoded in four-character quanta
with mandatory `=` padding. `none` models the Go error return. -/
def base64DecodeStd (s : GoStr) : Option GoStr :=
  b64DecodeQuanta (s.filter (fun c => c ≠ 10 ∧ c ≠ 13))

/-- `Basic` stores username and password for the basic HTTP authentication
scheme (struct `Basic` in the source). -/
structure Basic where
  Username : GoStr
  Password : GoStr
  deriving DecidableEq, Repr

/-- Embedding of `NewBasic`: base64-decode the credentials and split the
decoded bytes on every colon; succeeds exactly when the split has two
fields. `Except.error` carries the Go error message. -/
def NewBasic (credentials : GoStr) : Except GoStr Basic :=
  match base64DecodeStd credentials with
  | some b =>
    match goSplit 58 b with
    | [u, p] => .ok { Username := u, Password := p }
    | _ => .error (ascii "The basic authentication header is malformed.")
  | none => .error (ascii "The basic authentication header is malformed.")

/-- Embedding of an HTTP request, restricted to what the middleware reads:
the `Authorization` header values (`none` when the key is absent) and the
form parameters as populated by `req.ParseForm()` (merged query string and
body fields), as an association list from parameter name to value list. -/
structure Request where
  authorization : Option (List GoStr)
  form : List (GoStr × List GoStr)
  deriving DecidableEq, Repr

/-- Lookup in the form map: value list of the first entry with the given
key, or the empty list when the key is absent (Go map indexing yields the
nil slice for a missing key). -/
def formGet : List (GoStr × List GoStr) → GoStr → List GoStr
  | [], _ => []
  | (k, vs) :: rest, key => if k = key then vs else formGet rest key

/-- Embedding of `Parse`: split the header value on the first space into
scheme and credentials; Go returns the triple (scheme, credentials, err),
with empty strings alongside the error. -/
def Parse (value : GoStr) : GoStr × GoStr × Option GoStr :=
  match splitN2 32 value with
  | [a, b] => (a, b, none)
  | _ => ([], [], some (ascii "The authorization header is malformed."))

/-- Embedding of `ParseRequest`: read the first `Authorization` header
value and parse it; a missing key or empty value list is an error. -/
def ParseRequest (r : Request) : GoStr × GoStr × Option GoStr :=
  match r.authorization with
  | none => ([], [], some (ascii "The authorization header is not set."))
  | some [] => ([], [], some (ascii "The authorization header is not set."))
  | some (v :: _) => Parse v

/-- The middleware state: the configured access token. The wrapped
downstream handler (`app`) is represented in the outcome type: an
authorized request is forwarded to it unchanged. -/
structure AuthHandler where
  token : GoStr
  deriving DecidableEq, Repr

/-- Embedding of `authorize`. `some (unauthorized, reason)` is the Go
return value; `none` models a runtime panic: in the `Basic` branch, when
`NewBasic` fails, `basic` is the nil pointer and the unconditional
`basic.Password` read dereferences nil. The error from `ParseRequest` is
discarded (Go assigns it to the blank identifier). -/
def authorize (handler : AuthHandler) (req : Request) : Option (Bool × GoStr) :=
  let p := ParseRequest req
  let scheme := p.1
  let credentials := p.2.1
  if scheme = ascii "Bearer" then
    if credentials ≠ handler.token then some (true, ascii "Invalid Access Token")
    else some (false, [])
  else if scheme = ascii "Basic" then
    match NewBasic credentials with
    | .error _ => none
    | .ok basic =>
      if basic.Password ≠ handler.token then some (true, ascii "Invalid credentials")
      else some (false, [])
  else
    if (formGet req.form (ascii "access_token")).length = 0
        ∨ (formGet req.form (ascii "access_token")).headD [] ≠ handler.token then
      some (true, ascii "Mising or invalid access_token")
    else some (false, [])

/-- Observable outcome of one request through the middleware: a synthesized
rejection (status and body), the request forwarded unchanged to the
downstream handler, or a runtime panic. -/
inductive Outcome
  | reject (status : Nat) (body : GoStr)
  | forward (req : Request)
  | panicked
  deriving DecidableEq, Repr

/-- Embedding of `ServeHTTP`: reject with 401 and the reason as body when
`authorize` reports unauthorized, otherwise forward the request verbatim;
a panic in `authorize` propagates. -/
def ServeHTTP (handler : AuthHandler) (req : Request) : Outcome :=
  match authorize handler req with
  | none => .panicked
  | some (true, reason) => .reject 401 reason
  | some (false, _) => .forward req

/-- Embedding of `NewAuthHandler`: build the middleware from the
configured token (the downstream handler is implicit in `Outcome`). -/
def NewAuthHandler (token : GoStr) : AuthHandler :=
  { token := token }

/-- Map the middleware over a whole sequence of requests, one outcome per
request, to express statelessness across a run. -/
def handleAll (handler : AuthHandler) (rs : List Request) : List Outcome :=
  rs.map (ServeHTTP handler)

/-! ## Lemmas about the splitting helpers -/

theorem splitFirst_of_not_mem (sep : Nat) (l : List Nat) (h : sep ∉ l) :
    splitFirst sep l = none := by
  induction l with
  | nil => rfl
  | cons c cs ih =>
    rw [List.mem_cons, not_or] at h
    have hc : c ≠ sep := fun hcc => h.1 hcc.symm
    simp [splitFirst, hc, ih h.2]

theorem splitFirst_append (sep : Nat) (u v : List Nat) (h : sep ∉ u) :
    splitFirst sep (u ++ sep :: v) = some (u, v) := by
  induction u with
  | nil => simp [splitFirst]
  | cons c cs ih =>
    rw [List.mem_cons, not_or] at h
    have hc : c ≠ sep := fun hcc => h.1 hcc.symm
    simp [splitFirst, hc, ih h.2]

/-- A header value of the form `scheme ++ " " ++ credentials`, with no
space in the scheme, parses to that scheme and credentials. -/
theorem Parse_scheme (s c : GoStr) (h : 32 ∉ s) :
    Parse (s ++ 32 :: c) = (s, c, none) := by
  simp [Parse, splitN2, splitFirst_append 32 s c h]

theorem goSplit_ne_nil (sep : Nat) (l : List Nat) : goSplit sep l ≠ [] := by
  cases l with
  | nil => simp [goSplit]
  | cons c cs =>
    by_cases hc : c = sep
    · simp [goSplit, hc]
    · cases hg : goSplit sep cs <;> simp [goSplit, hc, hg]

theorem goSplit_of_not_mem (sep : Nat) (l : List Nat) (h : sep ∉ l) :
    goSplit sep l = [l] := by
  induction l with
  | nil => rfl
  | cons c cs ih =>
    rw [List.mem_cons, not_or] at h
    have hc : c ≠ sep := fun hcc => h.1 hcc.symm
    simp [goSplit, hc, ih h.2]

theorem goSplit_append (sep : Nat) (u v : List Nat) (h : sep ∉ u) :
    goSplit sep (u ++ sep :: v) = u :: goSplit sep v := by
  induction u with
  | nil => simp [goSplit]
  | cons c cs ih =>
    rw [List.mem_cons, not_or] at h
    have hc : c ≠ sep := fun hcc => h.1 hcc.symm
    simp [goSplit, hc, ih h.2]

theorem goSplit_eq_singleton (sep : Nat) (l x : List Nat)
    (h : goSplit sep l = [x]) : l = x ∧ sep ∉ x := by
  induction l generalizing x with
  | nil =>
    simp only [goSplit] at h
    injection h with h1 _
    subst h1
    simp
  | cons c cs ih =>
    by_cases hc : c = sep
    · simp only [goSplit, if_pos hc] at h
      injection h with _ h2
      exact absurd h2 (goSplit_ne_nil sep cs)
    · simp only [goSplit, if_neg hc] at h
      cases hg : goSplit sep cs with
      | nil => exact absurd hg (goSplit_ne_nil sep cs)
      | cons hd tl =>
        simp only [hg] at h
        injection h with h1 h2
        subst h2
        obtain ⟨hcs, hmem⟩ := ih hd hg
        subst hcs
        constructor
        · exact h1.symm ▸ rfl
        · subst h1
          intro hm
          rcases List.mem_cons.mp hm with hm | hm
          · exact hc hm.symm
          · exact hmem hm

theorem goSplit_eq_pair (sep : Nat) (l u p : List Nat)
    (h : goSplit sep l = [u, p]) : l = u ++ sep :: p ∧ sep ∉ u ∧ sep ∉ p := by
  induction l generalizing u p with
  | nil => simp [goSplit] at h
  | cons c cs ih =>
    by_cases hc : c = sep
    · simp only [goSplit, if_pos hc] at h
      injection h with h1 h2
      obtain ⟨hcs, hmem⟩ := goSplit_eq_singleton sep cs p h2
      subst hcs
      subst hc
      cases h1
      refine ⟨rfl, by simp, hmem⟩
    · simp only [goSplit, if_neg hc] at h
      cases hg : goSplit sep cs with
      | nil => exact absurd hg (goSplit_ne_nil sep cs)
      | cons hd tl =>
        simp only [hg] at h
        injection h with h1 h2
        subst h1
        obtain ⟨hcs, hu, hp⟩ := ih hd p (by rw [hg, h2])
        subst hcs
        refine ⟨rfl, ?_, hp⟩
        intro hm
        rcases List.mem_cons.mp hm with hm | hm
        · exact hc hm.symm
        · exact hu hm

/-! ## Claim theorems -/

/-- C1: for a request whose Authorization header is `Basic` with
credentials that are not valid base64 (here `"!!!"`), the handler does not
return a 401 with body "Malformed Basic Authorization crdentials": the
`nil` result of `NewBasic` is dereferenced and the handler panics. The
claim (and the spec) say it should answer 401 without crashing; the code
sets that reason but is missing a return, so the subsequent
`basic.Password` read crashes the request. -/
theorem c1_malformed_basic_panics :
    ServeHTTP (NewAuthHandler (ascii "s3cr3t"))
        { authorization := some [ascii "Basic !!!"], form := [] } = .panicked ∧
      ServeHTTP (NewAuthHandler (ascii "s3cr3t"))
        { authorization := some [ascii "Basic !!!"], form := [] } ≠
        .reject 401 (ascii "Malformed Basic Authorization crdentials") := by
  constructor
  · decide
  · decide

/-- C2 counterexample: with configured token "t", a request whose
Authorization header value "nospace" does not split into two parts and
whose query carries a matching access_token is forwarded downstream — it
is not rejected with a malformed-header reason, contradicting the claim
that such a request never falls through to the access_token check. -/
theorem c2_counterexample :
    ServeHTTP (NewAuthHandler (ascii "t"))
        { authorization := some [ascii "nospace"],
          form := [(ascii "access_token", [ascii "t"])] } =
      .forward { authorization := some [ascii "nospace"],
                 form := [(ascii "access_token", [ascii "t"])] } := by
  decide

/-- C2 amended: when the Authorization header value contains no space, the
parse error is discarded by `authorize`, the scheme is the empty string,
and the decision is exactly the one for a request with no Authorization
header at all: the request falls through to the access_token
query-parameter rule instead of being rejected as malformed. -/
theorem c2_amended_fallthrough (T v : GoStr) (rest : List GoStr)
    (form : List (GoStr × List GoStr)) (hv : 32 ∉ v) :
    authorize (NewAuthHandler T) { authorization := some (v :: rest), form := form } =
      authorize (NewAuthHandler T) { authorization := none, form := form } := by
  have hsf : splitFirst 32 v = none := splitFirst_of_not_mem 32 v hv
  simp [authorize, ParseRequest, Parse, splitN2, hsf]

/-- C2 amended, witness at a concrete input. -/
theorem c2_amended_fallthrough_witness :
    authorize (NewAuthHandler (ascii "t"))
        { authorization := some [ascii "nospace"], form := [] } =
      authorize (NewAuthHandler (ascii "t"))
        { authorization := none, form := [] } :=
  c2_amended_fallthrough (ascii "t") (ascii "nospace") [] [] (by decide)

/-- C3: a request whose Authorization header is `Bearer` followed by
credentials C is forwarded verbatim when C equals the configured token T,
and rejected with 401 and body "Invalid Access Token" when C differs. -/
theorem c3_bearer_decision (T C : GoStr) (rest : List GoStr)
    (form : List (GoStr × List GoStr)) :
    ServeHTTP (NewAuthHandler T)
        { authorization := some ((ascii "Bearer " ++ C) :: rest), form := form } =
      if C = T then
        .forward { authorization := some ((ascii "Bearer " ++ C) :: rest), form := form }
      else .reject 401 (ascii "Invalid Access Token") := by
  have h2 : Parse (ascii "Bearer " ++ C) = (ascii "Bearer", C, none) := by
    have h1 : ascii "Bearer " ++ C = ascii "Bearer" ++ 32 :: C := rfl
    rw [h1]
    exact Parse_scheme _ _ (by decide)
  rcases eq_or_ne C T with hC | hC
  · subst hC
    simp [ServeHTTP, authorize, ParseRequest, h2, NewAuthHandler]
  · simp [ServeHTTP, authorize, ParseRequest, h2, NewAuthHandler, hC]

/-- C4: a request whose Authorization header is `Basic` with credentials
that decode to `u ++ ":" ++ p` with exactly one colon is forwarded when
the password p equals the configured token T, whatever the username u,
and rejected with 401 and body "Invalid credentials" when p differs. -/
theorem c4_basic_decision (T u p cred : GoStr) (rest : List GoStr)
    (form : List (GoStr × List GoStr))
    (hdec : base64DecodeStd cred = some (u ++ 58 :: p))
    (hu : 58 ∉ u) (hpc : 58 ∉ p) :
    ServeHTTP (NewAuthHandler T)
        { authorization := some ((ascii "Basic " ++ cred) :: rest), form := form } =
      if p = T then
        .forward { authorization := some ((ascii "Basic " ++ cred) :: rest), form := form }
      else .reject 401 (ascii "Invalid credentials") := by
  have h2 : Parse (ascii "Basic " ++ cred) = (ascii "Basic", cred, none) := by
    have h1 : ascii "Basic " ++ cred = ascii "Basic" ++ 32 :: cred := rfl
    rw [h1]
    exact Parse_scheme _ _ (by decide)
  have hBB : ascii "Basic" ≠ ascii "Bearer" := by decide
  have hnb : NewBasic cred = .ok { Username := u, Password := p } := by
    simp only [NewBasic, hdec, goSplit_append 58 u p hu, goSplit_of_not_mem 58 p hpc]
  rcases eq_or_ne p T with hpt | hpt
  · subst hpt
    simp [ServeHTTP, authorize, ParseRequest, h2, hBB, hnb, NewAuthHandler]
  · simp [ServeHTTP, authorize, ParseRequest, h2, hBB, hnb, NewAuthHandler, hpt]

/-- C4, witness: with token "s3cr3t" and credentials base64("alice:s3cr3t")
the request is forwarded. -/
theorem c4_basic_decision_witness :
    ServeHTTP (NewAuthHandler (ascii "s3cr3t"))
        { authorization := some [ascii "Basic " ++ ascii "YWxpY2U6czNjcjN0"],
          form := [] } =
      .forward { authorization := some [ascii "Basic " ++ ascii "YWxpY2U6czNjcjN0"],
                 form := [] } := by
  have h := c4_basic_decision (ascii "s3cr3t") (ascii "alice") (ascii "s3cr3t")
    (ascii "YWxpY2U6czNjcjN0") [] [] (by decide) (by decide) (by decide)
  rwa [if_pos rfl] at h

/-- C5: with no Authorization header, the decision is the access_token
rule over the merged form parameters: forwarded exactly when the
parameter is present with a first value equal to the configured token,
otherwise 401 with body "Mising or invalid access_token". -/
theorem c5_access_token_decision (T : GoStr) (form : List (GoStr × List GoStr)) :
    ServeHTTP (NewAuthHandler T) { authorization := none, form := form } =
      match formGet form (ascii "access_token") with
      | [] => .reject 401 (ascii "Mising or invalid access_token")
      | v :: _ =>
        if v = T then .forward { authorization := none, form := form }
        else .reject 401 (ascii "Mising or invalid access_token") := by
  have hB1 : ascii "Bearer" ≠ ([] : GoStr) := by decide
  have hB2 : ascii "Basic" ≠ ([] : GoStr) := by decide
  cases hf : formGet form (ascii "access_token") with
  | nil =>
    simp [ServeHTTP, authorize, ParseRequest, hf, hB1, Ne.symm hB1, hB2,
      Ne.symm hB2, NewAuthHandler]
  | cons v vs =>
    rcases eq_or_ne v T with hv | hv
    · subst hv
      simp [ServeHTTP, authorize, ParseRequest, hf, hB1, Ne.symm hB1, hB2,
        Ne.symm hB2, NewAuthHandler]
    · simp [ServeHTTP, authorize, ParseRequest, hf, hB1, Ne.symm hB1, hB2,
        Ne.symm hB2, NewAuthHandler, hv]

/-- C6: a scheme other than "Bearer" and "Basic" is not rejected on its
own: the decision equals the one for the same request with no
Authorization header (the access_token rule), and in particular a
matching access_token parameter makes the request forwarded. -/
theorem c6_unknown_scheme_fallthrough (T s c : GoStr) (rest vs : List GoStr)
    (form : List (GoStr × List GoStr))
    (h1 : s ≠ ascii "Bearer") (h2 : s ≠ ascii "Basic") (h3 : 32 ∉ s) :
    authorize (NewAuthHandler T)
        { authorization := some ((s ++ 32 :: c) :: rest), form := form } =
      authorize (NewAuthHandler T) { authorization := none, form := form } ∧
    (formGet form (ascii "access_token") = T :: vs →
      ServeHTTP (NewAuthHandler T)
          { authorization := some ((s ++ 32 :: c) :: rest), form := form } =
        .forward { authorization := some ((s ++ 32 :: c) :: rest), form := form }) := by
  have hp : Parse (s ++ 32 :: c) = (s, c, none) := Parse_scheme _ _ h3
  have hB1 : ascii "Bearer" ≠ ([] : GoStr) := by decide
  have hB2 : ascii "Basic" ≠ ([] : GoStr) := by decide
  constructor
  · simp [authorize, ParseRequest, hp, h1, h2, hB1, Ne.symm hB1, hB2,
      Ne.symm hB2, NewAuthHandler]
  · intro hf
    simp [ServeHTTP, authorize, ParseRequest, hp, h1, h2, hf, NewAuthHandler]

/-- C6, witness: scheme "Weirdscheme" with a correct access_token query
parameter is forwarded. -/
theorem c6_unknown_scheme_fallthrough_witness :
    ServeHTTP (NewAuthHandler (ascii "s3cr3t"))
        { authorization := some [ascii "Weirdscheme " ++ ascii "abc"],
          form := [(ascii "access_token", [ascii "s3cr3t"])] } =
      .forward { authorization := some [ascii "Weirdscheme " ++ ascii "abc"],
                 form := [(ascii "access_token", [ascii "s3cr3t"])] } := by
  have h := c6_unknown_scheme_fallthrough (ascii "s3cr3t") (ascii "Weirdscheme")
    (ascii "abc") [] [] [(ascii "access_token", [ascii "s3cr3t"])]
    (by decide) (by decide) (by decide)
  exact h.2 (by decide)

/-- C7: `NewBasic` succeeds with the pair (u, p) exactly when its input
base64-decodes to `u ++ ":" ++ p` where neither field contains a colon —
so a decoded text with zero colons or more than one colon (a password
containing ':') makes it fail — and every failure carries the malformed
basic authentication error message. -/
theorem c7_NewBasic_characterization (cred u p : GoStr) :
    (NewBasic cred = .ok { Username := u, Password := p } ↔
      base64DecodeStd cred = some (u ++ 58 :: p) ∧ 58 ∉ u ∧ 58 ∉ p) ∧
    (∀ e, NewBasic cred = .error e →
      e = ascii "The basic authentication header is malformed.") := by
  constructor
  · constructor
    · intro hok
      rw [NewBasic] at hok
      split at hok
      · rename_i b hd
        split at hok
        · rename_i u2 p2 hg
          injection hok with hok
          injection hok with hu2 hp2
          obtain ⟨hb, hmu, hmp⟩ := goSplit_eq_pair 58 b u2 p2 hg
          rw [hd, hb, hu2, hp2]
          exact ⟨rfl, hu2 ▸ hmu, hp2 ▸ hmp⟩
        · cases hok
      · cases hok
    · rintro ⟨hdec, hu, hp⟩
      simp only [NewBasic, hdec, goSplit_append 58 u p hu, goSplit_of_not_mem 58 p hp]
  · intro e he
    rw [NewBasic] at he
    split at he
    · split at he
      · cases he
      · injection he with he
        exact he.symm
    · injection he with he
      exact he.symm

/-- C7, witness: base64("alice:s3cr3t") decodes to the pair
("alice", "s3cr3t"). -/
theorem c7_NewBasic_characterization_witness :
    NewBasic (ascii "YWxpY2U6czNjcjN0") =
      .ok { Username := ascii "alice", Password := ascii "s3cr3t" } :=
  (c7_NewBasic_characterization (ascii "YWxpY2U6czNjcjN0")
    (ascii "alice") (ascii "s3cr3t")).1.mpr (by decide)

/-- C8: the decision is deterministic and stateless: over any run, each
request is mapped to its outcome independently, so two occurrences of the
same request anywhere in a run yield the same outcome (decision and
reason), with no state carried between requests. -/
theorem c8_stateless_run (handler : AuthHandler) (pre mid post : List Request)
    (r : Request) :
    handleAll handler (pre ++ r :: mid ++ r :: post) =
      handleAll handler pre ++ ServeHTTP handler r ::
        handleAll handler mid ++ ServeHTTP handler r :: handleAll handler post := by
  simp [handleAll]

/-- C9: only the first Authorization header value is consulted: the
decision for a request with several values equals the decision for the
same request keeping only the first value. -/
theorem c9_first_authorization_value (handler : AuthHandler) (v : GoStr)
    (rest : List GoStr) (form : List (GoStr × List GoStr)) :
    authorize handler { authorization := some (v :: rest), form := form } =
      authorize handler { authorization := some [v], form := form } := rfl

/-- C10: with the empty string as configured token, a request with no
Authorization header whose access_token parameter has an empty first
value is authorized and forwarded. -/
theorem c10_empty_token_empty_param (form : List (GoStr × List GoStr))
    (vs : List GoStr) (hf : formGet form (ascii "access_token") = [] :: vs) :
    ServeHTTP (NewAuthHandler []) { authorization := none, form := form } =
      .forward { authorization := none, form := form } := by
  have hB1 : ascii "Bearer" ≠ ([] : GoStr) := by decide
  have hB2 : ascii "Basic" ≠ ([] : GoStr) := by decide
  simp [ServeHTTP, authorize, ParseRequest, hf, hB1, Ne.symm hB1, hB2,
    Ne.symm hB2, NewAuthHandler]

/-- C10, witness at the concrete form `access_token=`. -/
theorem c10_empty_token_empty_param_witness :
    ServeHTTP (NewAuthHandler [])
        { authorization := none, form := [(ascii "access_token", [[]])] } =
      .forward { authorization := none, form := [(ascii "access_token", [[]])] } :=
  c10_empty_token_empty_param [(ascii "access_token", [[]])] [] (by decide)

end Firehose
